import Mathlib

/-!
# Scoreboard extractor of `server/cmd/api/main.go`

A shallow embedding of the route handler of `routes` from the point where
`json.Unmarshal` has filled a `BoxScoreSummary`, together with the two cell
decoders `getStringValue` and `getIntValue`.

* A value of Go type `interface{}` produced by `encoding/json` is one of
  `nil`, `bool`, `float64`, `string`, `[]interface{}`, `map[string]interface{}`;
  this is the type `Value`.
* A finite `float64` is `± mant * 2 ^ exp`; a JSON number never decodes to a
  NaN or an infinity.
* The Go conversion `int(num)` truncates toward zero when the result fits in
  `int`; otherwise the result is implementation-dependent, which is a field of
  `Platform`.
* `time.Parse` with the layout `"2006-01-02T15:04:05"` is `timeParse`.
* A run of the handler ends normally, by an early `return` or by a run-time
  panic (a failed type assertion or an index out of range): the type `Exec`.
* Lines written to standard output by `fmt.Println` / `fmt.Printf` are not part
  of the state.
-/

namespace Scoreboard

/-! ## Data model -/

/-- A finite IEEE-754 double: the number `(-1)^sign * mant * 2^exp`. -/
structure Float64 where
  sign : Bool
  mant : Nat
  exp : Int
  deriving Repr

/-- The pairs `(mant, exp)` that are values of a `float64`. -/
def Float64.representable (x : Float64) : Prop :=
  x.mant < 2 ^ 53 ∧ -1074 ≤ x.exp ∧ x.exp ≤ 971

instance (x : Float64) : Decidable x.representable := by
  unfold Float64.representable; infer_instance

/-- The rational number a `Float64` stands for. -/
def Float64.toRat (x : Float64) : ℚ :=
  (if x.sign then -1 else 1) * (x.mant : ℚ) * (2 : ℚ) ^ x.exp

/-- The integer part of the magnitude of a `Float64`. -/
def Float64.magnitude (x : Float64) : Nat :=
  if 0 ≤ x.exp then x.mant * 2 ^ x.exp.toNat else x.mant / 2 ^ (-x.exp).toNat

/-- The value with its fractional part discarded. -/
def Float64.trunc (x : Float64) : Int :=
  if x.sign then -(x.magnitude : Int) else (x.magnitude : Int)

/-- A decoded JSON value held in a Go `interface{}`. -/
inductive Value where
  | null : Value
  | bool (b : Bool) : Value
  | number (x : Float64) : Value
  | string (s : String) : Value
  | array (xs : List Value) : Value
  | object (kvs : List (String × Value)) : Value

/-- The word size of Go `int` and what `int(f)` yields when the truncation of
`f` is not representable (the language leaves that value to the implementation). -/
structure Platform where
  intBits : Nat
  convOutOfRange : Float64 → Int

/-- Whether `n` is a value of the platform `int`. -/
def Platform.fits (p : Platform) (n : Int) : Prop :=
  -(2 : Int) ^ (p.intBits - 1) ≤ n ∧ n < (2 : Int) ^ (p.intBits - 1)

instance (p : Platform) (n : Int) : Decidable (p.fits n) := by
  unfold Platform.fits; infer_instance

/-- Reduction of an integer into the range of the platform `int`. -/
def Platform.wrap (p : Platform) (n : Int) : Int :=
  (n + 2 ^ (p.intBits - 1)) % 2 ^ p.intBits - 2 ^ (p.intBits - 1)

/-- The conversion `int(num)` of a `float64`. -/
def Platform.toInt (p : Platform) (num : Float64) : Int :=
  if p.fits num.trunc then num.trunc else p.wrap (p.convOutOfRange num)

/-- The 64-bit x86 port: an out-of-range conversion gives the least `int`. -/
def amd64 : Platform where
  intBits := 64
  convOutOfRange := fun _ => -(2 : Int) ^ 63

/-- Go `time.Time` values in UTC, by their civil fields. -/
structure Time where
  year : Nat
  month : Nat
  day : Nat
  hour : Nat
  min : Nat
  sec : Nat
  nsec : Nat
  deriving DecidableEq, Repr

/-- The zero `time.Time`: January 1, year 1, 00:00:00 UTC. -/
def Time.zero : Time := ⟨1, 1, 1, 0, 0, 0, 0⟩

/-- The method `IsZero`. -/
def Time.IsZero (t : Time) : Bool := decide (t = Time.zero)

structure LineScore where
  TeamAbbr : String
  TeamCity : String
  TeamNickname : String
  PtsQtr1 : Int
  PtsQtr2 : Int
  PtsQtr3 : Int
  PtsQtr4 : Int
  PtsOt1 : Int
  PtsOt2 : Int
  PtsOt3 : Int
  PtsOt4 : Int
  PtsOt5 : Int
  PtsOt6 : Int
  PtsOt7 : Int
  PtsOt8 : Int
  PtsOt9 : Int
  PtsOt10 : Int
  Pts : Int
  deriving DecidableEq, Repr

structure ScoreboardResponse where
  Date : Time
  LineScores : List LineScore
  deriving DecidableEq, Repr

structure ResultSets where
  Name : String
  Headers : List String
  RowSet : List Value

structure BoxScoreSummary where
  ResultSets : List ResultSets

/-! ## Cell decoders -/

/-- Source `getStringValue`: the string of a string cell, `""` otherwise. -/
def getStringValue (val : Value) : String :=
  match val with
  | .string str => str
  | _ => ""

/-- Source `getIntValue`: `int(num)` of a `float64` cell, `0` otherwise. -/
def getIntValue (p : Platform) (val : Value) : Int :=
  match val with
  | .number num => p.toInt num
  | _ => 0

/-! ## `time.Parse` for the layout `"2006-01-02T15:04:05"`

Go strings are byte strings; every byte the layout inspects is ASCII, so a
test on the characters of the Lean string decides the same as the test on the
bytes. -/

/-- One ASCII digit. -/
def isDigitChar (c : Char) : Bool := 48 ≤ c.toNat && c.toNat ≤ 57

/-- The value of a digit character (`c - '0'`). -/
def digitVal (c : Char) : Nat := c.toNat - 48

/-- Go `isDigit(s, i)`: position `i` exists and holds a digit. -/
def isDigit (s : List Char) (i : Nat) : Bool :=
  match s.get? i with
  | some c => isDigitChar c
  | none => false

/-- Go `atoi` on a string whose first byte is a digit: every byte must be a
digit, the result is the decimal value. -/
def atoi (s : List Char) : Option Nat :=
  if s.all isDigitChar then some (s.foldl (fun n c => n * 10 + digitVal c) 0) else none

/-- Go `getnum(s, fixed)`: a one- or two-digit number, two digits when `fixed`. -/
def getnum (s : List Char) (fixed : Bool) : Option (Nat × List Char) :=
  if !isDigit s 0 then none
  else if !isDigit s 1 then
    if fixed then none else some (digitVal (s.getD 0 '0'), s.drop 1)
  else some (digitVal (s.getD 0 '0') * 10 + digitVal (s.getD 1 '0'), s.drop 2)

/-- Go `skip(value, prefix)` for a one-byte literal `c` that is not a space. -/
def skip (value : List Char) (c : Char) : Option (List Char) :=
  match value with
  | v :: rest => if v = c then some rest else none
  | [] => none

/-- The layout element `2006`: exactly four digits. -/
def getLongYear (value : List Char) : Option (Nat × List Char) :=
  if value.length < 4 || !isDigit value 0 then none
  else (atoi (value.take 4)).map fun year => (year, value.drop 4)

/-- Go `commaOrPeriod`. -/
def commaOrPeriod (c : Char) : Bool := c = '.' || c = ','

/-- A fractional second in the input that the layout does not mention: the
digits after `.` or `,` are read as nanoseconds (at most nine digits count). -/
def getFraction (value : List Char) : Nat × List Char :=
  if 2 ≤ value.length && commaOrPeriod (value.getD 0 '0') && isDigit value 1 then
    let digits := (value.drop 1).takeWhile isDigitChar
    let used := digits.take 9
    ((used.foldl (fun n c => n * 10 + digitVal c) 0) * 10 ^ (9 - used.length),
      value.drop (1 + digits.length))
  else (0, value)

/-- Go `isLeap`. -/
def isLeap (year : Nat) : Bool := year % 4 == 0 && (year % 100 != 0 || year % 400 == 0)

/-- Go `daysIn(m, year)`. -/
def daysIn (m : Nat) (year : Nat) : Nat :=
  if m == 2 && isLeap year then 29
  else match m with
    | 1 => 31 | 2 => 28 | 3 => 31 | 4 => 30 | 5 => 31 | 6 => 30
    | 7 => 31 | 8 => 31 | 9 => 30 | 10 => 31 | 11 => 30 | 12 => 31
    | _ => 0

/-- The chunks of the layout applied in order to the characters of the input;
`none` is any error of `time.Parse`. -/
def parseChars (value : List Char) : Option Time :=
  (getLongYear value).bind fun yv =>
  (skip yv.2 '-').bind fun value =>
  (getnum value true).bind fun mv =>
  if mv.1 ≤ 0 || 12 < mv.1 then none else
  (skip mv.2 '-').bind fun value =>
  (getnum value true).bind fun dv =>
  (skip dv.2 'T').bind fun value =>
  (getnum value false).bind fun hv =>
  if 24 ≤ hv.1 then none else
  (skip hv.2 ':').bind fun value =>
  (getnum value true).bind fun nv =>
  if 60 ≤ nv.1 then none else
  (skip nv.2 ':').bind fun value =>
  (getnum value true).bind fun sv =>
  if 60 ≤ sv.1 then none else
  let fv := getFraction sv.2
  if fv.2.length ≠ 0 then none else
  if dv.1 < 1 || daysIn mv.1 yv.1 < dv.1 then none else
  some ⟨yv.1, mv.1, dv.1, hv.1, nv.1, sv.1, fv.1⟩

/-- The call `time.Parse("2006-01-02T15:04:05", val)`. -/
def timeParse (val : String) : Option Time := parseChars val.toList

/-! ## The handler -/

/-- How a piece of the handler ends. -/
inductive Exec (α : Type) where
  | ok (a : α) : Exec α
  | returned : Exec α
  | panicked : Exec α
  deriving DecidableEq, Repr

/-- Sequencing: a `return` or a panic skips the rest. -/
def Exec.bind {α β : Type} (x : Exec α) (f : α → Exec β) : Exec β :=
  match x with
  | .ok a => f a
  | .returned => .returned
  | .panicked => .panicked

instance : Monad Exec where
  pure := Exec.ok
  bind := Exec.bind

/-- The index expression `row[i]`: a panic when `i` is out of range. -/
def index (row : List Value) (i : Nat) : Exec Value :=
  match row.get? i with
  | some v => .ok v
  | none => .panicked

/-- Lines 133-145: the date is read from `row[0]` while `scoreboard.Date` is zero. -/
def parseDate (date : Time) (row : List Value) : Exec Time :=
  if date.IsZero then do
    let cell ← index row 0
    match cell with
    | .string val =>
      match timeParse val with
      | none => .returned
      | some t => pure t
    | _ => pure date
  else pure date

/-- Lines 147-166: the composite literal `LineScore{...}`. -/
def decodeLineScore (p : Platform) (row : List Value) : Exec LineScore := do
  let c4 ← index row 4
  let c5 ← index row 5
  let c6 ← index row 6
  let c8 ← index row 8
  let c9 ← index row 9
  let c10 ← index row 10
  let c11 ← index row 11
  let c12 ← index row 12
  let c13 ← index row 13
  let c14 ← index row 14
  let c15 ← index row 15
  let c16 ← index row 16
  let c17 ← index row 17
  let c18 ← index row 18
  let c19 ← index row 19
  let c20 ← index row 20
  let c21 ← index row 21
  let c22 ← index row 22
  pure {
    TeamAbbr := getStringValue c4
    TeamCity := getStringValue c5
    TeamNickname := getStringValue c6
    PtsQtr1 := getIntValue p c8
    PtsQtr2 := getIntValue p c9
    PtsQtr3 := getIntValue p c10
    PtsQtr4 := getIntValue p c11
    PtsOt1 := getIntValue p c12
    PtsOt2 := getIntValue p c13
    PtsOt3 := getIntValue p c14
    PtsOt4 := getIntValue p c15
    PtsOt5 := getIntValue p c16
    PtsOt6 := getIntValue p c17
    PtsOt7 := getIntValue p c18
    PtsOt8 := getIntValue p c19
    PtsOt9 := getIntValue p c20
    PtsOt10 := getIntValue p c21
    Pts := getIntValue p c22 }

/-- Lines 131-168: the body of the loop over `resultSet.RowSet`. -/
def processRow (p : Platform) (scoreboard : ScoreboardResponse) (row : Value) :
    Exec ScoreboardResponse :=
  match row with
  | .array row => do
    let date ← parseDate scoreboard.Date row
    let lineScore ← decodeLineScore p row
    pure { Date := date, LineScores := scoreboard.LineScores ++ [lineScore] }
  | _ => .panicked

/-- Lines 130-169: the loop over the rows of one result-set. -/
def forRows (p : Platform) (scoreboard : ScoreboardResponse) :
    List Value → Exec ScoreboardResponse
  | [] => .ok scoreboard
  | row :: rest => (processRow p scoreboard row).bind fun sb => forRows p sb rest

/-- Lines 128-171: the loop over `boxScoreSummary.ResultSets`. -/
def forResultSets (p : Platform) (scoreboard : ScoreboardResponse) :
    List ResultSets → Exec ScoreboardResponse
  | [] => .ok scoreboard
  | resultSet :: rest =>
    if resultSet.Name = "LineScore" then
      (forRows p scoreboard resultSet.RowSet).bind fun sb => forResultSets p sb rest
    else forResultSets p scoreboard rest

/-- What the handler hands to the `http.ResponseWriter`: the header it sets and
the value whose JSON encoding is the body. -/
structure Response where
  contentType : String
  body : ScoreboardResponse
  deriving DecidableEq, Repr

/-- The call `json.Marshal(scoreboard)` succeeds unless the year of the date
needs more than four digits (`Time.MarshalJSON`); strings and integers always
encode. -/
def jsonMarshal (scoreboard : ScoreboardResponse) : Option ScoreboardResponse :=
  if scoreboard.Date.year < 10000 then some scoreboard else none

/-- Lines 173-180: encode the result, set the header, write the body. -/
def respond (scoreboard : ScoreboardResponse) : Exec Response :=
  match jsonMarshal scoreboard with
  | none => .returned
  | some responseJSON => .ok ⟨"application/json", responseJSON⟩

/-- Lines 126-180: the handler from the decoded `boxScoreSummary` on. -/
def handler (p : Platform) (boxScoreSummary : BoxScoreSummary) : Exec Response :=
  (forResultSets p ⟨Time.zero, []⟩ boxScoreSummary.ResultSets).bind respond

/-! ## Specification vocabulary -/

/-- Truncation of a rational toward zero: the floor of a non-negative number,
the ceiling of a negative one. -/
def truncTowardZero (q : ℚ) : Int := if 0 ≤ q then ⌊q⌋ else ⌈q⌉

/-- The cell at position `i` of a row, `null` past the end. -/
def cell (row : List Value) (i : Nat) : Value := row.getD i .null

/-- The cells of a row that is an array. -/
def Value.cells : Value → List Value
  | .array xs => xs
  | _ => []

/-- A row the positional decoding can read: an array of at least 23 cells. -/
def rowOK (row : Value) : Bool :=
  match row with
  | .array xs => decide (23 ≤ xs.length)
  | _ => false

/-- The record the positional offsets describe for a row. -/
def decodeRow (p : Platform) (row : List Value) : LineScore where
  TeamAbbr := getStringValue (cell row 4)
  TeamCity := getStringValue (cell row 5)
  TeamNickname := getStringValue (cell row 6)
  PtsQtr1 := getIntValue p (cell row 8)
  PtsQtr2 := getIntValue p (cell row 9)
  PtsQtr3 := getIntValue p (cell row 10)
  PtsQtr4 := getIntValue p (cell row 11)
  PtsOt1 := getIntValue p (cell row 12)
  PtsOt2 := getIntValue p (cell row 13)
  PtsOt3 := getIntValue p (cell row 14)
  PtsOt4 := getIntValue p (cell row 15)
  PtsOt5 := getIntValue p (cell row 16)
  PtsOt6 := getIntValue p (cell row 17)
  PtsOt7 := getIntValue p (cell row 18)
  PtsOt8 := getIntValue p (cell row 19)
  PtsOt9 := getIntValue p (cell row 20)
  PtsOt10 := getIntValue p (cell row 21)
  Pts := getIntValue p (cell row 22)

/-- The numeric fields of a record in declaration order. -/
def LineScore.points (ls : LineScore) : List Int :=
  [ls.PtsQtr1, ls.PtsQtr2, ls.PtsQtr3, ls.PtsQtr4, ls.PtsOt1, ls.PtsOt2, ls.PtsOt3,
   ls.PtsOt4, ls.PtsOt5, ls.PtsOt6, ls.PtsOt7, ls.PtsOt8, ls.PtsOt9, ls.PtsOt10, ls.Pts]

/-- Row-set selection as the specification words it: keep the result-sets whose
name is exactly `"LineScore"` and flatten their rows in table order. -/
def selectRows (resultSets : List ResultSets) : List Value :=
  ((resultSets.filter fun rs => decide (rs.Name = "LineScore")).map fun rs => rs.RowSet).flatten

/-- The table with the single result-set `"LineScore"` holding the selected rows. -/
def flattenTable (bs : BoxScoreSummary) : BoxScoreSummary :=
  ⟨[⟨"LineScore", [], selectRows bs.ResultSets⟩]⟩

/-- A date cell that cannot abort the request: anything but a string that
`time.Parse` rejects. -/
def dateOK (row : Value) : Bool :=
  match row.cells.get? 0 with
  | some (.string s) => (timeParse s).isSome
  | _ => true

/-- The date a run of well-shaped rows leaves in the result, started from `d`. -/
def dateLoop (d : Time) : List Value → Exec Time
  | [] => .ok d
  | row :: rest => (parseDate d row.cells).bind fun t => dateLoop t rest

/-! ## Example tables -/

/-- A numeric cell holding the natural number `n`. -/
def num (n : Nat) : Value := .number ⟨false, n, 0⟩

/-- A string cell. -/
def str (s : String) : Value := .string s

/-- The `float64` nearest to `27.9`. -/
def f27_9 : Float64 := ⟨false, 3926575925113651, -47⟩

/-- The `float64` nearest to `-27.9`. -/
def fNeg27_9 : Float64 := ⟨true, 3926575925113651, -47⟩

/-- The `float64` value `1e19`, that is `5^19 * 2^19`. -/
def f1e19 : Float64 := ⟨false, 19073486328125, 19⟩

/-- A 23-cell row in the upstream column order with the given date, team
abbreviation and first-quarter cells. -/
def teamRow (date abbr q1 : Value) : List Value :=
  [date, num 1, str "0021700807", num 1610612747, abbr, str "Los Angeles", str "Lakers",
   str "11-27", q1, num 30, num 28, num 22, num 0, num 0, num 0, num 0, num 0, num 0, num 0,
   num 0, num 0, num 0, num 105]

/-- The row of the scenario of the specification. -/
def lalRow : List Value := teamRow (str "2018-01-02T00:00:00") (str "LAL") (num 25)

/-- A second team row with badly typed cells and an unusable date cell. -/
def bosRow : List Value := teamRow (str "not a date") .null (str "25")

/-- The scenario table: one result-set `"LineScore"` with the one row, after a
result-set of another name. -/
def lalTable : BoxScoreSummary :=
  ⟨[⟨"GameSummary", ["GAME_DATE_EST"], [.array [str "2018-01-02T00:00:00"]]⟩,
    ⟨"LineScore", [], [.array lalRow]⟩]⟩

/-- Two team rows in one `"LineScore"` result-set. -/
def twoTeamTable : BoxScoreSummary :=
  ⟨[⟨"LineScore", [], [.array lalRow, .array bosRow]⟩]⟩

/-- A second team row with badly typed cells and a date one day later. -/
def celRow : List Value := teamRow (str "2018-01-03T00:00:00") .null (str "25")

/-- The rows of `"LineScore"` spread over two result-sets of that name. -/
def splitTable : BoxScoreSummary :=
  ⟨[⟨"LineScore", [], [.array lalRow]⟩, ⟨"Officials", [], [.null]⟩,
    ⟨"LineScore", [], [.array celRow]⟩]⟩

/-- One 23-cell row whose date cell is the string `n/a`. -/
def naDateTable : BoxScoreSummary :=
  ⟨[⟨"LineScore", [], [.array (teamRow (str "n/a") (str "LAL") (num 25))]⟩]⟩

/-- A row whose first-quarter cell is `1e19`. -/
def hugeRow : List Value := teamRow (str "2018-01-02T00:00:00") (str "LAL") (.number f1e19)

/-- The first row carries year 1, January 1, midnight; the second a later date. -/
def zeroDateTable : BoxScoreSummary :=
  ⟨[⟨"LineScore", [],
      [.array (teamRow (str "0001-01-01T00:00:00") (str "LAL") (num 25)),
       .array (teamRow (str "2018-01-02T00:00:00") (str "BOS") (num 31))]⟩]⟩

/-- The first row carries year 1, January 1, midnight; the date cell of the
second is not a date. -/
def zeroDateBadTable : BoxScoreSummary :=
  ⟨[⟨"LineScore", [],
      [.array (teamRow (str "0001-01-01T00:00:00") (str "LAL") (num 25)),
       .array (teamRow (str "n/a") (str "BOS") (num 31))]⟩]⟩

/-- The date cell of the only row is a number. -/
def numericDateTable : BoxScoreSummary :=
  ⟨[⟨"LineScore", [], [.array (teamRow (num 20180102) (str "LAL") (num 25))]⟩]⟩

/-- The only row has three cells. -/
def shortRowTable : BoxScoreSummary :=
  ⟨[⟨"LineScore", [], [.array [str "2018-01-02T00:00:00", num 1, str "0021700807"]]⟩]⟩

/-- The only element of the row-set is a string, not an array. -/
def nonArrayRowTable : BoxScoreSummary :=
  ⟨[⟨"LineScore", [], [str "2018-01-02T00:00:00"]⟩]⟩

/-- No result-set is named exactly `"LineScore"`. -/
def noLineScoreTable : BoxScoreSummary :=
  ⟨[⟨"linescore", [], [.array lalRow]⟩, ⟨"LineScore ", [], [.array bosRow]⟩,
    ⟨" LineScore", [], [.null]⟩, ⟨"GameSummary", [], [.array []]⟩]⟩

/-- A first row with a numeric date cell, then a row whose date cell is a
string in another format. -/
def lateBadDateTable : BoxScoreSummary :=
  ⟨[⟨"LineScore", [],
      [.array (teamRow (num 20180102) (str "LAL") (num 25)),
       .array (teamRow (str "01/02/2018") (str "BOS") (num 31))]⟩]⟩

/-! ## Truncation -/

theorem Float64.magnitude_eq_floor (x : Float64) :
    (x.magnitude : Int) = ⌊(x.mant : ℚ) * (2 : ℚ) ^ x.exp⌋ := by
  unfold Float64.magnitude
  split
  · rename_i h
    obtain ⟨k, hk⟩ := Int.eq_ofNat_of_zero_le h
    rw [hk]
    simp only [Int.toNat_ofNat, zpow_natCast]
    have : (x.mant : ℚ) * 2 ^ k = ((x.mant * 2 ^ k : ℕ) : ℚ) := by push_cast; ring
    rw [this]
    exact (Int.floor_natCast _).symm
  · rename_i h
    have h' : 0 ≤ -x.exp := by omega
    obtain ⟨k, hk⟩ := Int.eq_ofNat_of_zero_le h'
    have hx : x.exp = -(k : Int) := by omega
    rw [hk, hx]
    simp only [Int.toNat_ofNat, zpow_neg, zpow_natCast]
    have : (x.mant : ℚ) * ((2 : ℚ) ^ k)⁻¹ = ((x.mant : ℤ) : ℚ) / ((2 ^ k : ℕ) : ℚ) := by
      push_cast; rw [div_eq_mul_inv]
    rw [this, Rat.floor_intCast_div_natCast]
    push_cast
    rfl

theorem Float64.trunc_eq_truncTowardZero (x : Float64) :
    x.trunc = truncTowardZero x.toRat := by
  have hmag := x.magnitude_eq_floor
  have hr : (0 : ℚ) ≤ (x.mant : ℚ) * (2 : ℚ) ^ x.exp := by positivity
  unfold Float64.trunc Float64.toRat truncTowardZero
  cases hs : x.sign
  · simp only [Bool.false_eq_true, if_false, one_mul, if_pos hr]
    exact hmag
  · simp only [if_true, neg_mul, one_mul]
    split
    · rename_i h0
      have hz : (x.mant : ℚ) * (2 : ℚ) ^ x.exp = 0 := le_antisymm (by linarith) hr
      rw [hz] at hmag
      simp [hz, hmag]
    · rw [Int.ceil_neg, hmag]

/-! ## Rows -/

theorem get?_eq_cell {row : List Value} {i : Nat} (h : i < row.length) :
    row.get? i = some (cell row i) := by
  unfold cell
  rw [List.get?_eq_get h]
  simp [List.getD_eq_getElem?_getD, List.getElem?_eq_getElem h]

theorem index_of_lt {row : List Value} {i : Nat} (h : i < row.length) :
    index row i = .ok (cell row i) := by
  unfold index cell
  rw [List.get?_eq_get h]
  simp [List.getD_eq_getElem?_getD, List.getElem?_eq_getElem h]

theorem decodeLineScore_of_length (p : Platform) {row : List Value} (h : 23 ≤ row.length) :
    decodeLineScore p row = .ok (decodeRow p row) := by
  unfold decodeLineScore
  rw [index_of_lt (show 4 < row.length by omega), index_of_lt (show 5 < row.length by omega),
    index_of_lt (show 6 < row.length by omega), index_of_lt (show 8 < row.length by omega),
    index_of_lt (show 9 < row.length by omega), index_of_lt (show 10 < row.length by omega),
    index_of_lt (show 11 < row.length by omega), index_of_lt (show 12 < row.length by omega),
    index_of_lt (show 13 < row.length by omega), index_of_lt (show 14 < row.length by omega),
    index_of_lt (show 15 < row.length by omega), index_of_lt (show 16 < row.length by omega),
    index_of_lt (show 17 < row.length by omega), index_of_lt (show 18 < row.length by omega),
    index_of_lt (show 19 < row.length by omega), index_of_lt (show 20 < row.length by omega),
    index_of_lt (show 21 < row.length by omega), index_of_lt (show 22 < row.length by omega)]
  rfl

theorem parseDate_of_nonzero {d : Time} (h : d.IsZero = false) (row : List Value) :
    parseDate d row = .ok d := by
  unfold parseDate
  simp [h]
  rfl

theorem parseDate_of_string {d : Time} (h : d.IsZero = true) {row : List Value} {s : String}
    (h0 : row.get? 0 = some (.string s)) :
    parseDate d row = match timeParse s with
      | none => .returned
      | some t => .ok t := by
  unfold parseDate index
  simp only [h, if_true, h0]
  rfl

theorem parseDate_of_nonstring {d : Time} {row : List Value} {v : Value}
    (h0 : row.get? 0 = some v) (hv : ∀ s, v ≠ .string s) :
    parseDate d row = .ok d := by
  cases hz : d.IsZero
  · exact parseDate_of_nonzero hz row
  · unfold parseDate index
    simp only [hz, if_true, h0]
    cases v <;> first | rfl | exact absurd rfl (hv _)

theorem processRow_of_length (p : Platform) (sb : ScoreboardResponse) {row : List Value}
    (h : 23 ≤ row.length) :
    processRow p sb (.array row) =
      (parseDate sb.Date row).bind fun d => .ok ⟨d, sb.LineScores ++ [decodeRow p row]⟩ := by
  unfold processRow
  simp only [decodeLineScore_of_length p h]
  rfl

/-! ## Loops -/

theorem forRows_append (p : Platform) (sb : ScoreboardResponse) (xs ys : List Value) :
    forRows p sb (xs ++ ys) = (forRows p sb xs).bind fun sb1 => forRows p sb1 ys := by
  induction xs generalizing sb with
  | nil => rfl
  | cons row rest ih =>
    simp only [List.cons_append, forRows]
    cases processRow p sb row with
    | ok sb1 => exact ih sb1
    | returned => rfl
    | panicked => rfl

theorem forResultSets_eq_forRows (p : Platform) (sb : ScoreboardResponse)
    (rss : List ResultSets) :
    forResultSets p sb rss = forRows p sb (selectRows rss) := by
  induction rss generalizing sb with
  | nil => rfl
  | cons rs rest ih =>
    unfold forResultSets
    by_cases hn : rs.Name = "LineScore"
    · have hsel : selectRows (rs :: rest) = rs.RowSet ++ selectRows rest := by
        simp [selectRows, hn]
      rw [if_pos hn, hsel, forRows_append]
      congr 1
      funext sb1
      exact ih sb1
    · have hsel : selectRows (rs :: rest) = selectRows rest := by
        simp [selectRows, hn]
      rw [if_neg hn, hsel]
      exact ih sb

theorem handler_eq_forRows (p : Platform) (bs : BoxScoreSummary) :
    handler p bs = (forRows p ⟨Time.zero, []⟩ (selectRows bs.ResultSets)).bind respond := by
  unfold handler
  rw [forResultSets_eq_forRows]

theorem rowOK_iff {row : Value} :
    rowOK row = true ↔ ∃ xs, row = .array xs ∧ 23 ≤ xs.length := by
  cases row <;> simp [rowOK]

theorem forRows_of_rowOK (p : Platform) (sb : ScoreboardResponse) (rows : List Value)
    (h : ∀ r ∈ rows, rowOK r = true) :
    forRows p sb rows = (dateLoop sb.Date rows).bind fun d =>
      .ok ⟨d, sb.LineScores ++ rows.map fun r => decodeRow p r.cells⟩ := by
  induction rows generalizing sb with
  | nil => simp [forRows, dateLoop, Exec.bind]
  | cons row rest ih =>
    obtain ⟨xs, rfl, hlen⟩ := rowOK_iff.mp (h _ (List.mem_cons_self _ _))
    have hrest : ∀ r ∈ rest, rowOK r = true := fun r hr => h r (List.mem_cons_of_mem _ hr)
    have hc : (Value.array xs).cells = xs := rfl
    simp only [forRows, dateLoop, processRow_of_length p sb hlen, hc]
    cases parseDate sb.Date xs with
    | ok d =>
      simp only [Exec.bind]
      rw [ih _ hrest]
      simp only [List.map_cons, List.append_assoc, List.singleton_append, hc]
      cases dateLoop d rest <;> rfl
    | returned => rfl
    | panicked => rfl

theorem dateLoop_of_nonzero {d : Time} (h : d.IsZero = false) (rows : List Value) :
    dateLoop d rows = .ok d := by
  induction rows with
  | nil => rfl
  | cons row rest ih =>
    simp only [dateLoop, parseDate_of_nonzero h, Exec.bind]
    exact ih

theorem Time.isZero_eq_false {t : Time} (h : t ≠ Time.zero) : t.IsZero = false := by
  simp [Time.IsZero, h]

/-! ## The parsed year has four digits -/

theorem digitVal_le {c : Char} (h : isDigitChar c = true) : digitVal c ≤ 9 := by
  unfold isDigitChar at h
  unfold digitVal
  simp only [Bool.and_eq_true, decide_eq_true_eq] at h
  omega

theorem foldl_digits_lt (l : List Char) (acc : Nat) (h : l.all isDigitChar = true) :
    l.foldl (fun n c => n * 10 + digitVal c) acc < (acc + 1) * 10 ^ l.length := by
  induction l generalizing acc with
  | nil => simp
  | cons c rest ih =>
    simp only [List.all_cons, Bool.and_eq_true] at h
    have hd := digitVal_le h.1
    have := ih (acc * 10 + digitVal c) h.2
    simp only [List.foldl_cons, List.length_cons]
    calc List.foldl (fun n c => n * 10 + digitVal c) (acc * 10 + digitVal c) rest
        < (acc * 10 + digitVal c + 1) * 10 ^ rest.length := this
      _ ≤ ((acc + 1) * 10) * 10 ^ rest.length := Nat.mul_le_mul_right _ (by omega)
      _ = (acc + 1) * 10 ^ (rest.length + 1) := by ring

theorem getLongYear_lt {value rest : List Char} {year : Nat}
    (h : getLongYear value = some (year, rest)) : year < 10000 := by
  unfold getLongYear atoi at h
  split at h
  · exact absurd h (by simp)
  · split at h
    · rename_i hall
      simp only [Option.map_some', Option.some.injEq, Prod.mk.injEq] at h
      have hlt := foldl_digits_lt (value.take 4) 0 hall
      have hlen : (value.take 4).length ≤ 4 := by simp
      have hpow : 10 ^ (value.take 4).length ≤ 10 ^ 4 := Nat.pow_le_pow_right (by omega) hlen
      omega
    · exact absurd h (by simp)

theorem of_ite_none_eq_some {α : Type} {c : Prop} [Decidable c] {x : Option α} {a : α}
    (h : (if c then none else x) = some a) : x = some a := by
  by_cases hc : c
  · rw [if_pos hc] at h
    exact absurd h (by simp)
  · rw [if_neg hc] at h
    exact h

theorem parseChars_year_lt {value : List Char} {t : Time} (h : parseChars value = some t) :
    t.year < 10000 := by
  unfold parseChars at h
  obtain ⟨⟨y, v1⟩, hy, h⟩ := Option.bind_eq_some.mp h
  have hlt := getLongYear_lt hy
  obtain ⟨v2, -, h⟩ := Option.bind_eq_some.mp h
  obtain ⟨mv, -, h⟩ := Option.bind_eq_some.mp h
  have h := of_ite_none_eq_some h
  obtain ⟨v3, -, h⟩ := Option.bind_eq_some.mp h
  obtain ⟨dv, -, h⟩ := Option.bind_eq_some.mp h
  obtain ⟨v4, -, h⟩ := Option.bind_eq_some.mp h
  obtain ⟨hv, -, h⟩ := Option.bind_eq_some.mp h
  have h := of_ite_none_eq_some h
  obtain ⟨v5, -, h⟩ := Option.bind_eq_some.mp h
  obtain ⟨nv, -, h⟩ := Option.bind_eq_some.mp h
  have h := of_ite_none_eq_some h
  obtain ⟨v6, -, h⟩ := Option.bind_eq_some.mp h
  obtain ⟨sv, -, h⟩ := Option.bind_eq_some.mp h
  have h := of_ite_none_eq_some h
  have h := of_ite_none_eq_some h
  have h := of_ite_none_eq_some h
  rw [← Option.some.inj h]
  exact hlt

theorem timeParse_year_lt {s : String} {t : Time} (h : timeParse s = some t) :
    t.year < 10000 :=
  parseChars_year_lt h

theorem respond_of_year {sb : ScoreboardResponse} (h : sb.Date.year < 10000) :
    respond sb = .ok ⟨"application/json", sb⟩ := by
  unfold respond jsonMarshal
  rw [if_pos h]

theorem parseDate_of_pos {xs : List Value} (h : 0 < xs.length) (d : Time) :
    parseDate d xs =
      if d.IsZero then
        match cell xs 0 with
        | .string s =>
          match timeParse s with
          | none => .returned
          | some t => .ok t
        | _ => .ok d
      else .ok d := by
  unfold parseDate
  rw [index_of_lt h]
  rfl

theorem dateLoop_year (rows : List Value) (hshape : ∀ r ∈ rows, rowOK r = true) (d : Time)
    (hd : d.year < 10000) :
    dateLoop d rows = .returned ∨ ∃ t, dateLoop d rows = .ok t ∧ t.year < 10000 := by
  induction rows generalizing d with
  | nil => exact Or.inr ⟨d, rfl, hd⟩
  | cons row rest ih =>
    obtain ⟨xs, rfl, hlen⟩ := rowOK_iff.mp (hshape _ (List.mem_cons_self _ _))
    have hrest : ∀ r ∈ rest, rowOK r = true := fun r hr => hshape r (List.mem_cons_of_mem _ hr)
    have hc : (Value.array xs).cells = xs := rfl
    simp only [dateLoop, hc, parseDate_of_pos (show 0 < xs.length by omega)]
    split
    · split
      · split
        · exact Or.inl rfl
        · rename_i t ht
          exact ih hrest t (timeParse_year_lt ht)
      · exact ih hrest d hd
    · exact ih hrest d hd

theorem dateLoop_ok (rows : List Value) (hshape : ∀ r ∈ rows, rowOK r = true)
    (hdate : ∀ r ∈ rows, dateOK r = true) (d : Time) (hd : d.year < 10000) :
    ∃ t, dateLoop d rows = .ok t ∧ t.year < 10000 := by
  induction rows generalizing d with
  | nil => exact ⟨d, rfl, hd⟩
  | cons row rest ih =>
    obtain ⟨xs, rfl, hlen⟩ := rowOK_iff.mp (hshape _ (List.mem_cons_self _ _))
    have hrest : ∀ r ∈ rest, rowOK r = true := fun r hr => hshape r (List.mem_cons_of_mem _ hr)
    have hrest2 : ∀ r ∈ rest, dateOK r = true := fun r hr => hdate r (List.mem_cons_of_mem _ hr)
    have hc : (Value.array xs).cells = xs := rfl
    have hok := hdate _ (List.mem_cons_self _ _)
    unfold dateOK at hok
    have hget : xs.get? 0 = some (cell xs 0) := get?_eq_cell (by omega)
    rw [hc, hget] at hok
    simp only [dateLoop, hc, parseDate_of_pos (show 0 < xs.length by omega)]
    split
    · split
      · rename_i s hs
        rw [hs] at hok
        simp only at hok
        split
        · rename_i hn
          rw [hn] at hok
          exact absurd hok (by simp)
        · rename_i t ht
          exact ih hrest hrest2 t (timeParse_year_lt ht)
      · exact ih hrest hrest2 d hd
    · exact ih hrest hrest2 d hd

theorem Time.zero_year : Time.zero.year < 10000 := by decide

theorem handler_of_rowOK (p : Platform) (bs : BoxScoreSummary)
    (hshape : ∀ r ∈ selectRows bs.ResultSets, rowOK r = true) :
    handler p bs = .returned ∨ ∃ d, handler p bs =
      .ok ⟨"application/json", ⟨d, (selectRows bs.ResultSets).map fun r => decodeRow p r.cells⟩⟩ := by
  rw [handler_eq_forRows, forRows_of_rowOK p _ _ hshape]
  rcases dateLoop_year _ hshape Time.zero Time.zero_year with h | ⟨t, h, ht⟩
  · left
    rw [h]
    rfl
  · right
    refine ⟨t, ?_⟩
    rw [h]
    simp only [Exec.bind, List.nil_append]
    exact respond_of_year ht

theorem handler_of_dateOK (p : Platform) (bs : BoxScoreSummary)
    (hshape : ∀ r ∈ selectRows bs.ResultSets, rowOK r = true)
    (hdate : ∀ r ∈ selectRows bs.ResultSets, dateOK r = true) :
    ∃ d, handler p bs =
      .ok ⟨"application/json", ⟨d, (selectRows bs.ResultSets).map fun r => decodeRow p r.cells⟩⟩ := by
  rw [handler_eq_forRows, forRows_of_rowOK p _ _ hshape]
  obtain ⟨t, h, ht⟩ := dateLoop_ok _ hshape hdate Time.zero Time.zero_year
  refine ⟨t, ?_⟩
  rw [h]
  simp only [Exec.bind, List.nil_append]
  exact respond_of_year ht

theorem handler_of_first_date (p : Platform) (bs : BoxScoreSummary) (first rest : List Value)
    (s : String) (t : Time)
    (hrows : selectRows bs.ResultSets = .array first :: rest)
    (hfirst : 23 ≤ first.length) (hrest : ∀ r ∈ rest, rowOK r = true)
    (h0 : first.get? 0 = some (.string s)) (hp : timeParse s = some t) (hnz : t ≠ Time.zero) :
    handler p bs = .ok ⟨"application/json",
      ⟨t, decodeRow p first :: rest.map fun r => decodeRow p r.cells⟩⟩ := by
  have hshape : ∀ r ∈ Value.array first :: rest, rowOK r = true := by
    intro r hr
    rcases List.mem_cons.mp hr with rfl | hr
    · simp [rowOK, hfirst]
    · exact hrest r hr
  have hc : (Value.array first).cells = first := rfl
  rw [handler_eq_forRows, hrows, forRows_of_rowOK p _ _ hshape]
  simp only [dateLoop, hc, parseDate_of_string (show Time.zero.IsZero = true by decide) h0, hp,
    Exec.bind, dateLoop_of_nonzero (Time.isZero_eq_false hnz), List.map_cons, List.nil_append]
  exact respond_of_year (timeParse_year_lt hp)

theorem decodeRow_points (p : Platform) (row : List Value) (k : Nat) (hk : k < 15) :
    (decodeRow p row).points.get? k = some (getIntValue p (cell row (8 + k))) := by
  interval_cases k <;> rfl

theorem getIntValue_of_fits (p : Platform) (x : Float64)
    (h : p.fits (truncTowardZero x.toRat)) :
    getIntValue p (.number x) = truncTowardZero x.toRat := by
  rw [← x.trunc_eq_truncTowardZero] at h ⊢
  show p.toInt x = x.trunc
  unfold Platform.toInt
  rw [if_pos h]

theorem getIntValue_of_not_number (p : Platform) (v : Value) (h : ∀ x, v ≠ .number x) :
    getIntValue p v = 0 := by
  cases v <;> first | rfl | exact absurd rfl (h _)

theorem getStringValue_of_not_string (v : Value) (h : ∀ s, v ≠ .string s) :
    getStringValue v = "" := by
  cases v <;> first | rfl | exact absurd rfl (h _)

theorem selectRows_of_absent {rss : List ResultSets}
    (h : ∀ rs ∈ rss, rs.Name ≠ "LineScore") : selectRows rss = [] := by
  induction rss with
  | nil => rfl
  | cons rs rest ih =>
    have hn : rs.Name ≠ "LineScore" := h rs (List.mem_cons_self _ _)
    have hrest := ih fun r hr => h r (List.mem_cons_of_mem _ hr)
    have hsel : selectRows (rs :: rest) = selectRows rest := by
      simp [selectRows, hn]
    rw [hsel, hrest]

theorem selectRows_append (xs ys : List ResultSets) :
    selectRows (xs ++ ys) = selectRows xs ++ selectRows ys := by
  simp [selectRows]

theorem selectRows_single {pre post : List ResultSets} {rs : ResultSets}
    (hpre : ∀ r ∈ pre, r.Name ≠ "LineScore") (hpost : ∀ r ∈ post, r.Name ≠ "LineScore")
    (hname : rs.Name = "LineScore") :
    selectRows (pre ++ rs :: post) = rs.RowSet := by
  have hcons : selectRows (rs :: post) = rs.RowSet ++ selectRows post := by
    simp [selectRows, hname]
  rw [selectRows_append, hcons, selectRows_of_absent hpre, selectRows_of_absent hpost]
  simp

theorem Platform.toInt_lt (p : Platform) (hb : 0 < p.intBits) (x : Float64) :
    p.toInt x < (2 : Int) ^ (p.intBits - 1) := by
  unfold Platform.toInt
  split
  · rename_i h
    exact h.2
  · unfold Platform.wrap
    have hpow : (2 : Int) ^ p.intBits = 2 * 2 ^ (p.intBits - 1) := by
      conv_lhs => rw [show p.intBits = (p.intBits - 1) + 1 by omega]
      rw [pow_succ]
      ring
    have hpos : (0 : Int) < 2 ^ p.intBits := by positivity
    have hlt := Int.emod_lt_of_pos (p.convOutOfRange x + 2 ^ (p.intBits - 1)) hpos
    omega

/-! ## The claims -/

/-- C5: `getIntValue` of a numeric cell whose truncation fits in the platform
`int` is the value truncated toward zero; of any cell that is not numeric it
is `0`. The function is total. -/
theorem getIntValue_truncates (p : Platform) (val : Value) :
    (∀ x, val = .number x → p.fits (truncTowardZero x.toRat) →
        getIntValue p val = truncTowardZero x.toRat) ∧
    ((∀ x, val ≠ .number x) → getIntValue p val = 0) := by
  refine ⟨?_, getIntValue_of_not_number p val⟩
  rintro x rfl hfit
  exact getIntValue_of_fits p x hfit

/-- C5 at `27.9`, `-27.9` and at a string cell, on a 64-bit platform: the results
are `27`, `-27` and `0`. -/
theorem getIntValue_truncates_witness :
    f27_9.representable ∧ fNeg27_9.representable ∧
    amd64.fits (truncTowardZero f27_9.toRat) ∧
    getIntValue amd64 (.number f27_9) = truncTowardZero f27_9.toRat ∧
    truncTowardZero f27_9.toRat = 27 ∧
    getIntValue amd64 (.number fNeg27_9) = truncTowardZero fNeg27_9.toRat ∧
    truncTowardZero fNeg27_9.toRat = -27 ∧
    getIntValue amd64 (.string "27.9") = 0 := by
  have h1 : truncTowardZero f27_9.toRat = 27 := by
    rw [← Float64.trunc_eq_truncTowardZero]; decide
  have h2 : truncTowardZero fNeg27_9.toRat = -27 := by
    rw [← Float64.trunc_eq_truncTowardZero]; decide
  have f1 : amd64.fits (truncTowardZero f27_9.toRat) := by rw [h1]; decide
  have f2 : amd64.fits (truncTowardZero fNeg27_9.toRat) := by rw [h2]; decide
  exact ⟨by decide, by decide, f1,
    (getIntValue_truncates amd64 (.number f27_9)).1 f27_9 rfl f1, h1,
    (getIntValue_truncates amd64 (.number fNeg27_9)).1 fNeg27_9 rfl f2, h2,
    (getIntValue_truncates amd64 (.string "27.9")).2 (fun x h => Value.noConfusion h)⟩

/-- C6: `getStringValue` returns a string cell unchanged (the empty string
included) and the empty string for a null, boolean, numeric, array or object
cell. The function is total. -/
theorem getStringValue_spec :
    (∀ s, getStringValue (.string s) = s) ∧
    getStringValue (.string "") = "" ∧
    getStringValue .null = "" ∧
    (∀ b, getStringValue (.bool b) = "") ∧
    (∀ x, getStringValue (.number x) = "") ∧
    (∀ xs, getStringValue (.array xs) = "") ∧
    (∀ kvs, getStringValue (.object kvs) = "") :=
  ⟨fun _ => rfl, rfl, rfl, fun _ => rfl, fun _ => rfl, fun _ => rfl, fun _ => rfl⟩

/-- C1, as the code has it: for a row of at least 23 cells the record built is
the one with the three strings read by `getStringValue` from cells 4, 5, 6 and the
fifteen integers read by `getIntValue` from cells 8 to 22, and it is the record
appended; a numeric field is the truncation toward zero of its cell when the
cell is numeric and the truncation fits in the platform `int`, and `0` when the
cell is not numeric; rows that agree on cells 4, 5, 6, 8..22 give the same
record. -/
theorem decodeLineScore_positional (p : Platform) (row : List Value) (h : 23 ≤ row.length) :
    decodeLineScore p row = .ok
      { TeamAbbr := getStringValue (cell row 4)
        TeamCity := getStringValue (cell row 5)
        TeamNickname := getStringValue (cell row 6)
        PtsQtr1 := getIntValue p (cell row 8)
        PtsQtr2 := getIntValue p (cell row 9)
        PtsQtr3 := getIntValue p (cell row 10)
        PtsQtr4 := getIntValue p (cell row 11)
        PtsOt1 := getIntValue p (cell row 12)
        PtsOt2 := getIntValue p (cell row 13)
        PtsOt3 := getIntValue p (cell row 14)
        PtsOt4 := getIntValue p (cell row 15)
        PtsOt5 := getIntValue p (cell row 16)
        PtsOt6 := getIntValue p (cell row 17)
        PtsOt7 := getIntValue p (cell row 18)
        PtsOt8 := getIntValue p (cell row 19)
        PtsOt9 := getIntValue p (cell row 20)
        PtsOt10 := getIntValue p (cell row 21)
        Pts := getIntValue p (cell row 22) } ∧
    (∀ sb sb1, processRow p sb (.array row) = .ok sb1 →
        sb1.LineScores = sb.LineScores ++ [decodeRow p row]) ∧
    (∀ k x, k < 15 → cell row (8 + k) = .number x → p.fits (truncTowardZero x.toRat) →
        (decodeRow p row).points.get? k = some (truncTowardZero x.toRat)) ∧
    (∀ k, k < 15 → (∀ x, cell row (8 + k) ≠ .number x) →
        (decodeRow p row).points.get? k = some 0) ∧
    (∀ other : List Value, 23 ≤ other.length →
        (∀ i, i = 4 ∨ i = 5 ∨ i = 6 ∨ (8 ≤ i ∧ i ≤ 22) → cell other i = cell row i) →
        decodeLineScore p other = decodeLineScore p row) := by
  refine ⟨decodeLineScore_of_length p h, ?_, ?_, ?_, ?_⟩
  · intro sb sb1 hrow
    rw [processRow_of_length p sb h] at hrow
    cases hd : parseDate sb.Date row with
    | ok d =>
      rw [hd] at hrow
      simp only [Exec.bind, Exec.ok.injEq] at hrow
      rw [← hrow]
    | returned => rw [hd] at hrow; exact absurd hrow (by simp [Exec.bind])
    | panicked => rw [hd] at hrow; exact absurd hrow (by simp [Exec.bind])
  · intro k x hk hx hfit
    rw [decodeRow_points p row k hk, hx, getIntValue_of_fits p x hfit]
  · intro k hk hx
    rw [decodeRow_points p row k hk, getIntValue_of_not_number p _ hx]
  · intro other ho hsame
    rw [decodeLineScore_of_length p h, decodeLineScore_of_length p ho]
    unfold decodeRow
    rw [hsame 4 (by omega), hsame 5 (by omega), hsame 6 (by omega), hsame 8 (by omega),
      hsame 9 (by omega), hsame 10 (by omega), hsame 11 (by omega), hsame 12 (by omega),
      hsame 13 (by omega), hsame 14 (by omega), hsame 15 (by omega), hsame 16 (by omega),
      hsame 17 (by omega), hsame 18 (by omega), hsame 19 (by omega), hsame 20 (by omega),
      hsame 21 (by omega), hsame 22 (by omega)]

/-- C1 at the scenario row, with the cells outside 4, 5, 6, 8..22 replaced and
a 24th cell added: the same record, `LAL` with 25, 30, 28, 22 and 105 points. -/
theorem decodeLineScore_positional_witness :
    23 ≤ lalRow.length ∧
    decodeLineScore amd64 lalRow = .ok
      ⟨"LAL", "Los Angeles", "Lakers", 25, 30, 28, 22, 0, 0, 0, 0, 0, 0, 0, 0, 0, 0, 105⟩ ∧
    decodeLineScore amd64
        (teamRow .null (str "LAL") (num 25) ++ [str "extra"]) = decodeLineScore amd64 lalRow :=
  ⟨by decide,
    (decodeLineScore_positional amd64 lalRow (by decide)).1.trans (by decide),
    (decodeLineScore_positional amd64 lalRow (by decide)).2.2.2.2 _ (by decide) (by
      intro i hi
      rcases hi with rfl | rfl | rfl | ⟨h1, h2⟩
      · rfl
      · rfl
      · rfl
      · interval_cases i <;> rfl)⟩

/-- C1 as stated fails for a numeric cell whose truncation does not fit in
`int`: with `1e19` in cell 8 the field `PtsQtr1` is the least 64-bit integer on
the x86-64 port, and on no platform whose `int` has at most 64 bits is it the
truncated value of the cell. -/
theorem lineScore_truncation_counterexample :
    f1e19.representable ∧ 23 ≤ hugeRow.length ∧ cell hugeRow 8 = .number f1e19 ∧
    (∃ ls, decodeLineScore amd64 hugeRow = .ok ls ∧
      ls.PtsQtr1 = -9223372036854775808 ∧
      ls.PtsQtr1 ≠ truncTowardZero f1e19.toRat) ∧
    ∀ p : Platform, 0 < p.intBits → p.intBits ≤ 64 →
      getIntValue p (cell hugeRow 8) ≠ truncTowardZero f1e19.toRat := by
  have htr : truncTowardZero f1e19.toRat = 10000000000000000000 := by
    rw [← Float64.trunc_eq_truncTowardZero]
    decide
  refine ⟨by decide, by decide, rfl,
    ⟨_, decodeLineScore_of_length amd64 (by decide), ?_, ?_⟩, ?_⟩
  · decide
  · rw [htr]
    decide
  · intro p hb hle
    rw [htr]
    have hlt := p.toInt_lt hb f1e19
    have hpow : (2 : Int) ^ (p.intBits - 1) ≤ 2 ^ 63 :=
      pow_le_pow_right₀ (by norm_num) (by omega)
    have hval : getIntValue p (cell hugeRow 8) = p.toInt f1e19 := rfl
    rw [hval]
    intro heq
    rw [heq] at hlt
    have : (10000000000000000000 : Int) < 2 ^ 63 := lt_of_lt_of_le hlt hpow
    exact absurd this (by norm_num)

/-- C7: when no result-set is named exactly `"LineScore"` no row is selected,
the loop leaves the result untouched (zero date, no record) and the handler
writes that result with the JSON content type. -/
theorem absent_lineScore_empty_result (p : Platform) (bs : BoxScoreSummary)
    (h : ∀ rs ∈ bs.ResultSets, rs.Name ≠ "LineScore") :
    selectRows bs.ResultSets = [] ∧
    forResultSets p ⟨Time.zero, []⟩ bs.ResultSets = .ok ⟨Time.zero, []⟩ ∧
    handler p bs = .ok ⟨"application/json", ⟨Time.zero, []⟩⟩ := by
  have hsel := selectRows_of_absent h
  refine ⟨hsel, ?_, ?_⟩
  · rw [forResultSets_eq_forRows, hsel]
    rfl
  · rw [handler_eq_forRows, hsel]
    rfl

/-- C7 at a table whose names differ from `"LineScore"` in case or by a blank,
and at the empty table. -/
theorem absent_lineScore_empty_result_witness :
    (∀ rs ∈ noLineScoreTable.ResultSets, rs.Name ≠ "LineScore") ∧
    handler amd64 noLineScoreTable = .ok ⟨"application/json", ⟨Time.zero, []⟩⟩ ∧
    handler amd64 ⟨[]⟩ = .ok ⟨"application/json", ⟨Time.zero, []⟩⟩ :=
  ⟨by decide,
    (absent_lineScore_empty_result amd64 noLineScoreTable (by decide)).2.2,
    (absent_lineScore_empty_result amd64 ⟨[]⟩ (by simp)).2.2⟩

/-- C8: when a row of a `"LineScore"` result-set is reached with the date still
zero and its cell 0 is a string that `time.Parse` rejects, the row returns from
the handler and the run ends without anything written. -/
theorem unparseable_date_aborts (p : Platform) (bs : BoxScoreSummary)
    (before after row : List Value) (sb : ScoreboardResponse) (s : String)
    (hrows : selectRows bs.ResultSets = before ++ .array row :: after)
    (hbefore : forRows p ⟨Time.zero, []⟩ before = .ok sb)
    (hzero : sb.Date.IsZero = true)
    (h0 : row.get? 0 = some (.string s))
    (hbad : timeParse s = none) :
    processRow p sb (.array row) = .returned ∧ handler p bs = .returned := by
  have hrow : processRow p sb (.array row) = .returned := by
    have hbody : processRow p sb (.array row) =
        (parseDate sb.Date row).bind fun date =>
          (decodeLineScore p row).bind fun lineScore =>
            .ok ⟨date, sb.LineScores ++ [lineScore]⟩ := rfl
    rw [hbody, parseDate_of_string hzero h0, hbad]
    rfl
  refine ⟨hrow, ?_⟩
  rw [handler_eq_forRows, hrows, forRows_append, hbefore]
  simp only [Exec.bind, forRows, hrow]

/-- C8 at a table whose first row has a numeric date cell (one record decoded,
date still zero) and whose second row has the date `01/02/2018`. -/
theorem unparseable_date_aborts_witness :
    forRows amd64 ⟨Time.zero, []⟩ [.array (teamRow (num 20180102) (str "LAL") (num 25))] =
      .ok ⟨Time.zero, [decodeRow amd64 (teamRow (num 20180102) (str "LAL") (num 25))]⟩ ∧
    timeParse "01/02/2018" = none ∧
    handler amd64 lateBadDateTable = .returned :=
  ⟨by decide, by decide,
    (unparseable_date_aborts amd64 lateBadDateTable
      [.array (teamRow (num 20180102) (str "LAL") (num 25))] []
      (teamRow (str "01/02/2018") (str "BOS") (num 31))
      ⟨Time.zero, [decodeRow amd64 (teamRow (num 20180102) (str "LAL") (num 25))]⟩
      "01/02/2018" rfl (by decide) (by decide) rfl (by decide)).2⟩

/-- C2, as the code has it: when every selected row is an array of at least 23
cells and cell 0 of the first is a string that parses to a time other than the
zero time, the date is that time after the first row and after every later
row, whatever the later date cells hold, and the handler writes a result
carrying it. -/
theorem date_from_first_row (p : Platform) (bs : BoxScoreSummary) (first rest : List Value)
    (s : String) (t : Time)
    (hrows : selectRows bs.ResultSets = .array first :: rest)
    (hfirst : 23 ≤ first.length) (hrest : ∀ r ∈ rest, rowOK r = true)
    (h0 : first.get? 0 = some (.string s)) (hp : timeParse s = some t)
    (hnz : t ≠ Time.zero) :
    (∀ done todo, rest = done ++ todo →
      ∃ sb, forRows p ⟨Time.zero, []⟩ (.array first :: done) = .ok sb ∧ sb.Date = t) ∧
    ∃ r, handler p bs = .ok r ∧ r.body.Date = t := by
  constructor
  · intro done todo hsplit
    have hshape : ∀ r ∈ Value.array first :: done, rowOK r = true := by
      intro r hr
      rcases List.mem_cons.mp hr with rfl | hr
      · simp [rowOK, hfirst]
      · exact hrest r (by rw [hsplit]; exact List.mem_append_left _ hr)
    have hc : (Value.array first).cells = first := rfl
    rw [forRows_of_rowOK p _ _ hshape]
    simp only [dateLoop, hc, parseDate_of_string (show Time.zero.IsZero = true by decide) h0, hp,
      Exec.bind, dateLoop_of_nonzero (Time.isZero_eq_false hnz)]
    exact ⟨_, rfl, rfl⟩
  · exact ⟨_, handler_of_first_date p bs first rest s t hrows hfirst hrest h0 hp hnz, rfl⟩

/-- C2 at two rows: the first dated 2018-01-02, the second with a date cell
that is not a date; the result carries 2018-01-02. -/
theorem date_from_first_row_witness :
    timeParse "2018-01-02T00:00:00" = some ⟨2018, 1, 2, 0, 0, 0, 0⟩ ∧
    timeParse "not a date" = none ∧
    ∃ r, handler amd64 twoTeamTable = .ok r ∧ r.body.Date = ⟨2018, 1, 2, 0, 0, 0, 0⟩ :=
  ⟨by decide, by decide,
    (date_from_first_row amd64 twoTeamTable lalRow [.array bosRow] "2018-01-02T00:00:00"
      ⟨2018, 1, 2, 0, 0, 0, 0⟩ rfl (by decide) (by decide) rfl (by decide) (by decide)).2⟩

/-- C2 as stated fails when the first date is the zero time: the first row
parses to year 1, January 1, midnight, the date stays zero, the second row is
parsed as well and its date is the one written. -/
theorem date_first_row_counterexample :
    timeParse "0001-01-01T00:00:00" = some Time.zero ∧
    handler amd64 zeroDateTable = .ok ⟨"application/json", ⟨⟨2018, 1, 2, 0, 0, 0, 0⟩,
      [⟨"LAL", "Los Angeles", "Lakers", 25, 30, 28, 22, 0, 0, 0, 0, 0, 0, 0, 0, 0, 0, 105⟩,
       ⟨"BOS", "Los Angeles", "Lakers", 31, 30, 28, 22, 0, 0, 0, 0, 0, 0, 0, 0, 0, 0, 105⟩]⟩⟩ := by
  constructor <;> decide

/-- C3, as the code has it: a first row of at least 23 cells whose cell 0 is not
a string does not end the request; the date stays zero, the record of the row
is appended and the run goes on with the next row; when the row is the only one
the result with the zero date and that record is written. -/
theorem nonstring_date_absorbed (p : Platform) (bs : BoxScoreSummary) (first rest : List Value)
    (hrows : selectRows bs.ResultSets = .array first :: rest)
    (hfirst : 23 ≤ first.length) (hv : ∀ s, cell first 0 ≠ .string s) :
    processRow p ⟨Time.zero, []⟩ (.array first) = .ok ⟨Time.zero, [decodeRow p first]⟩ ∧
    handler p bs = (forRows p ⟨Time.zero, [decodeRow p first]⟩ rest).bind respond ∧
    (rest = [] →
      handler p bs = .ok ⟨"application/json", ⟨Time.zero, [decodeRow p first]⟩⟩) := by
  have hrow : processRow p ⟨Time.zero, []⟩ (.array first) =
      .ok ⟨Time.zero, [decodeRow p first]⟩ := by
    rw [processRow_of_length p _ hfirst,
      parseDate_of_nonstring (get?_eq_cell (show 0 < first.length by omega)) hv]
    rfl
  have hh : handler p bs = (forRows p ⟨Time.zero, [decodeRow p first]⟩ rest).bind respond := by
    rw [handler_eq_forRows, hrows]
    simp only [forRows, hrow, Exec.bind]
  refine ⟨hrow, hh, ?_⟩
  intro hnil
  rw [hh, hnil]
  rfl

/-- C3 at a table whose only row has the number `20180102` as date cell: the
handler writes the zero date and the record of the row. -/
theorem nonstring_date_absorbed_witness :
    23 ≤ (teamRow (num 20180102) (str "LAL") (num 25)).length ∧
    (∀ s, cell (teamRow (num 20180102) (str "LAL") (num 25)) 0 ≠ .string s) ∧
    handler amd64 numericDateTable = .ok ⟨"application/json", ⟨Time.zero,
      [decodeRow amd64 (teamRow (num 20180102) (str "LAL") (num 25))]⟩⟩ :=
  ⟨by decide, fun _ h => Value.noConfusion h,
    (nonstring_date_absorbed amd64 numericDateTable (teamRow (num 20180102) (str "LAL") (num 25))
      [] rfl (by decide) (fun _ h => Value.noConfusion h)).2.2 rfl⟩

/-- C3 as stated fails: with a number in the date cell of the only row the
handler does not abort, it writes a result with the zero date and one record. -/
theorem nonstring_date_counterexample :
    selectRows numericDateTable.ResultSets =
      [.array (teamRow (num 20180102) (str "LAL") (num 25))] ∧
    handler amd64 numericDateTable = .ok ⟨"application/json", ⟨Time.zero,
      [⟨"LAL", "Los Angeles", "Lakers", 25, 30, 28, 22, 0, 0, 0, 0, 0, 0, 0, 0, 0, 0, 105⟩]⟩⟩ :=
  ⟨rfl, by decide⟩

/-- C4, as the code has it: when every selected row is an array of at least 23
cells the run never panics, whatever the types of the cells; a cell of the
wrong type gives `""` or `0`; and when no date cell is a string that
`time.Parse` rejects the handler writes a result with one record per row. -/
theorem wellshaped_rows_complete (p : Platform) (bs : BoxScoreSummary)
    (hshape : ∀ r ∈ selectRows bs.ResultSets, rowOK r = true) :
    handler p bs ≠ .panicked ∧
    ((∀ r ∈ selectRows bs.ResultSets, dateOK r = true) →
      ∃ d, handler p bs = .ok ⟨"application/json",
        ⟨d, (selectRows bs.ResultSets).map fun r => decodeRow p r.cells⟩⟩) ∧
    (∀ v, (∀ s, v ≠ .string s) → getStringValue v = "") ∧
    (∀ v, (∀ x, v ≠ .number x) → getIntValue p v = 0) := by
  refine ⟨?_, handler_of_dateOK p bs hshape, getStringValue_of_not_string,
    getIntValue_of_not_number p⟩
  rcases handler_of_rowOK p bs hshape with h | ⟨d, h⟩ <;> rw [h] <;> simp

/-- C4 at a one-row table whose team and first-quarter cells have the wrong
type: the record has `""` and `0` there and the result is written. -/
theorem wellshaped_rows_complete_witness :
    (∀ r ∈ selectRows
        (BoxScoreSummary.mk [⟨"LineScore", [],
          [.array (teamRow (str "2018-01-02T00:00:00") .null (str "25"))]⟩]).ResultSets,
      rowOK r = true) ∧
    handler amd64 ⟨[⟨"LineScore", [],
        [.array (teamRow (str "2018-01-02T00:00:00") .null (str "25"))]⟩]⟩ ≠ .panicked ∧
    getStringValue .null = "" ∧ getIntValue amd64 (str "25") = 0 :=
  have h := wellshaped_rows_complete amd64
    ⟨[⟨"LineScore", [], [.array (teamRow (str "2018-01-02T00:00:00") .null (str "25"))]⟩]⟩
    (by decide)
  ⟨by decide, h.1, h.2.2.1 _ (fun _ e => Value.noConfusion e),
    h.2.2.2 _ (fun _ e => Value.noConfusion e)⟩

/-- C4 as stated fails for a row of fewer than 23 cells and for a row-set
element that is not an array: both runs end in a panic, nothing is written. -/
theorem malformed_row_counterexample :
    handler amd64 shortRowTable = .panicked ∧ handler amd64 nonArrayRowTable = .panicked := by
  constructor <;> decide

/-- C9, as the code has it: for a table with one result-set named
`"LineScore"` whose rows are arrays of at least 23 cells, the first with a date
string that parses to a time other than the zero time, the handler writes that
date and exactly one record per row, in row order: the list has the length of
the row-set and its `i`-th entry is the decoding of the `i`-th row. -/
theorem one_record_per_row (p : Platform) (bs : BoxScoreSummary)
    (before after : List ResultSets) (rs : ResultSets) (first rest : List Value)
    (s : String) (t : Time)
    (htable : bs.ResultSets = before ++ rs :: after)
    (hbefore : ∀ r ∈ before, r.Name ≠ "LineScore")
    (hafter : ∀ r ∈ after, r.Name ≠ "LineScore")
    (hname : rs.Name = "LineScore")
    (hrows : rs.RowSet = .array first :: rest)
    (hfirst : 23 ≤ first.length) (hrest : ∀ r ∈ rest, rowOK r = true)
    (h0 : first.get? 0 = some (.string s)) (hp : timeParse s = some t)
    (hnz : t ≠ Time.zero) :
    handler p bs = .ok ⟨"application/json",
      ⟨t, rs.RowSet.map fun r => decodeRow p r.cells⟩⟩ ∧
    (rs.RowSet.map fun r => decodeRow p r.cells).length = rs.RowSet.length ∧
    ∀ i (hi : i < rs.RowSet.length),
      (rs.RowSet.map fun r => decodeRow p r.cells).get? i =
        some (decodeRow p (rs.RowSet.get ⟨i, hi⟩).cells) := by
  have hsel : selectRows bs.ResultSets = .array first :: rest := by
    rw [htable, selectRows_single hbefore hafter hname, hrows]
  refine ⟨?_, by simp, ?_⟩
  · rw [handler_of_first_date p bs first rest s t hsel hfirst hrest h0 hp hnz, hrows]
    rfl
  · intro i hi
    simp [List.getElem?_eq_getElem hi]

/-- C9 at the scenario of the specification: date 2018-01-02T00:00:00 and one
record, `LAL`, `Los Angeles`, `Lakers`, quarters 25, 30, 28, 22, no overtime
points, 105 points. -/
theorem one_record_per_row_witness :
    timeParse "2018-01-02T00:00:00" = some ⟨2018, 1, 2, 0, 0, 0, 0⟩ ∧
    handler amd64 lalTable = .ok ⟨"application/json", ⟨⟨2018, 1, 2, 0, 0, 0, 0⟩,
      [⟨"LAL", "Los Angeles", "Lakers", 25, 30, 28, 22, 0, 0, 0, 0, 0, 0, 0, 0, 0, 0, 105⟩]⟩⟩ :=
  ⟨by decide,
    (one_record_per_row amd64 lalTable
      [⟨"GameSummary", ["GAME_DATE_EST"], [.array [str "2018-01-02T00:00:00"]]⟩] []
      ⟨"LineScore", [], [.array lalRow]⟩ lalRow [] "2018-01-02T00:00:00"
      ⟨2018, 1, 2, 0, 0, 0, 0⟩ rfl (by decide) (by simp) rfl rfl (by decide) (by simp) rfl
      (by decide) (by decide)).1.trans (by decide)⟩

/-- C9 as stated fails when the first date is the zero time: both rows have 23
cells and the first date string parses, yet the second row, whose date cell is
not a date, is parsed too and ends the handler: no record is written. -/
theorem one_record_per_row_counterexample :
    (∀ r ∈ selectRows zeroDateBadTable.ResultSets, rowOK r = true) ∧
    timeParse "0001-01-01T00:00:00" = some Time.zero ∧
    handler amd64 zeroDateBadTable = .returned :=
  ⟨by decide, by decide, by decide⟩

/-- C10, as the code has it: for every table the handler is the handler on the
table with the single result-set `"LineScore"` that holds, in table order, the
rows of every result-set of that name, and the nested loop is the row loop over
those rows; when these rows are arrays of at least 23 cells and no date cell is
a string that `time.Parse` rejects, the handler writes a result whose records
are exactly the decodings of these rows, in order. -/
theorem handler_eq_flattened (p : Platform) (bs : BoxScoreSummary) :
    handler p bs = handler p (flattenTable bs) ∧
    forResultSets p ⟨Time.zero, []⟩ bs.ResultSets =
      forRows p ⟨Time.zero, []⟩ (selectRows bs.ResultSets) ∧
    ((∀ r ∈ selectRows bs.ResultSets, rowOK r = true) →
      (∀ r ∈ selectRows bs.ResultSets, dateOK r = true) →
      ∃ d, handler p bs = .ok ⟨"application/json",
        ⟨d, (selectRows bs.ResultSets).map fun r => decodeRow p r.cells⟩⟩) := by
  refine ⟨?_, forResultSets_eq_forRows p _ _, handler_of_dateOK p bs⟩
  have hflat : selectRows (flattenTable bs).ResultSets = selectRows bs.ResultSets := by
    simp [flattenTable, selectRows]
  rw [handler_eq_forRows, handler_eq_forRows, hflat]

/-- C10 at a table with two result-sets named `"LineScore"` around one of
another name: the same response as for the one result-set with both rows, the
date of the first row and the two records in table order. -/
theorem handler_eq_flattened_witness :
    selectRows splitTable.ResultSets = [.array lalRow, .array celRow] ∧
    (∀ r ∈ selectRows splitTable.ResultSets, rowOK r = true) ∧
    (∀ r ∈ selectRows splitTable.ResultSets, dateOK r = true) ∧
    handler amd64 splitTable =
      handler amd64 ⟨[⟨"LineScore", [], [.array lalRow, .array celRow]⟩]⟩ ∧
    handler amd64 splitTable = .ok ⟨"application/json", ⟨⟨2018, 1, 2, 0, 0, 0, 0⟩,
      [⟨"LAL", "Los Angeles", "Lakers", 25, 30, 28, 22, 0, 0, 0, 0, 0, 0, 0, 0, 0, 0, 105⟩,
       ⟨"", "Los Angeles", "Lakers", 0, 30, 28, 22, 0, 0, 0, 0, 0, 0, 0, 0, 0, 0, 105⟩]⟩⟩ :=
  ⟨rfl, by decide, by decide, (handler_eq_flattened amd64 splitTable).1,
    match (handler_eq_flattened amd64 splitTable).2.2 (by decide) (by decide) with
    | ⟨d, h⟩ => h.trans (by
        have hd : handler amd64 splitTable = .ok ⟨"application/json",
            ⟨⟨2018, 1, 2, 0, 0, 0, 0⟩,
              (selectRows splitTable.ResultSets).map fun r => decodeRow amd64 r.cells⟩⟩ := by
          decide
        rw [hd] at h
        simp only [Exec.ok.injEq, Response.mk.injEq, ScoreboardResponse.mk.injEq, true_and,
          and_true] at h
        rw [← h]
        decide)⟩

/-- C10 as stated fails for well-shaped rows with a date that does not parse:
the only row has 23 cells and decodes to the `LAL` record, yet the handler
returns at its date cell `n/a` and writes no record, on the table and on its
flattening alike. -/
theorem handler_eq_flattened_counterexample :
    (∀ r ∈ selectRows naDateTable.ResultSets, rowOK r = true) ∧
    ((selectRows naDateTable.ResultSets).map fun r => decodeRow amd64 r.cells) =
      [⟨"LAL", "Los Angeles", "Lakers", 25, 30, 28, 22, 0, 0, 0, 0, 0, 0, 0, 0, 0, 0, 105⟩] ∧
    timeParse "n/a" = none ∧
    handler amd64 naDateTable = .returned ∧
    handler amd64 (flattenTable naDateTable) = .returned :=
  ⟨by decide, by decide, by decide, by decide, by decide⟩

end Scoreboard
